import Mathlib

/-!
Shallow embedding of the hierarchical bounded-concurrency batch scheduler of
`src/core/graph_nodes/submodules.py` (learncompass), together with proofs of
the behavioural claims about it.

Conventions of the embedding:
* Python `dict` state (`LearningPathState`) becomes a Lean structure; the keys
  that the scheduler reads and writes become typed fields.
* The processing record map `submodules_in_process` becomes an association
  list; a write prepends, and lookup returns the most recent binding, which
  matches overwriting dict assignment.
* The external unit-processor (LLM query generation, search, content
  development: steps 1-3 of `process_single_submodule`) is a parameter
  `proc : Processor` returning `Except String SubPayload`; an exception
  raised by those steps is `Except.error`, which the `try/except` wrapper of
  `process_single_submodule` converts into an error-status result.
* Wall-clock timing metadata (`time.time()` calls, `processing_time`) is real
  time and is not represented; it does not influence any control decision of
  the scheduler (it is only logged and surfaced in log statistics).
* Progress callbacks are fire-and-forget I/O and are not represented; they do
  not influence the returned state.
-/

namespace LearnCompass

/-- A planned sub-unit (`models.models.Submodule`; the `models` package is not
under `src/`, its fields are taken from the uses in
`src/core/graph_nodes/submodules.py` and spec section 3: title/description
pair owned by one module). -/
structure Submodule where
  title : String
  description : String
deriving Repr, DecidableEq, Inhabited

/-- A top-level unit with its planned sub-units (`models.models.EnhancedModule`,
not under `src/`; fields from the uses in the scheduler and spec section 3). -/
structure EnhancedModule where
  title : String
  description : String
  submodules : List Submodule
deriving Repr, DecidableEq, Inhabited

/-- A search query produced by the unit-processor (`models.models.SearchQuery`,
not under `src/`; fields from the construction sites in `submodules.py`). -/
structure SearchQuery where
  keywords : String
  rationale : String
deriving Repr, DecidableEq, Inhabited

/-- One search result entry as built in `execute_single_search_for_submodule`. -/
structure SearchResult where
  source : String
  content : String
deriving Repr, DecidableEq, Inhabited

/-- A finalized sub-unit result (`models.models.SubmoduleContent`, not under
`src/`; fields from the construction site at `submodules.py` lines 408-416). -/
structure SubmoduleContent where
  module_id : ℕ
  submodule_id : ℕ
  title : String
  description : String
  search_queries : List SearchQuery
  search_results : List SearchResult
  content : String
deriving Repr, DecidableEq, Inhabited

/-- One element of the flat `all_submodules` list built in
`initialize_submodule_processing` (`submodules.py` lines 194-205). -/
structure SubItem where
  module_id : ℕ
  sub_id : ℕ
  module_title : String
  submodule_title : String
  module_idx : ℕ
  total_submodules : ℕ
deriving Repr, DecidableEq, Inhabited

/-- The outcome dictionary returned by `process_single_submodule`
(`submodules.py` lines 520-533 on success, lines 540-545 on failure).
`processing_time` (wall-clock) is omitted: it never influences control flow. -/
inductive SubResult where
  | completed (module_id : ℕ) (sub_id : ℕ)
      (search_queries : List SearchQuery) (search_results : List SearchResult)
      (content : String)
  | error (module_id : ℕ) (sub_id : ℕ) (message : String)
deriving Repr, DecidableEq, Inhabited

/-- The `"status"` field of a processing outcome. -/
def SubResult.status : SubResult → String
  | .completed .. => "completed"
  | .error .. => "error"

/-- The `(module_id, sub_id)` identifiers carried inside an outcome; the
reduce phase keys its write by them (`submodules.py` lines 360-374). -/
def SubResult.key : SubResult → ℕ × ℕ
  | .completed m s _ _ _ => (m, s)
  | .error m s _ => (m, s)

/-- The scheduler-relevant part of the `LearningPathState` dict.  `steps` is
optional because `finalize_enhanced_learning_path` reads it with `state["steps"]`
(a fallible dict access); every other key read by the scheduler is read with a
defaulted `.get` or is always written by an earlier node. -/
structure LearningPathState where
  user_topic : String
  enhanced_modules : List EnhancedModule
  submodule_parallel_count : ℕ
  submodule_batches : List (List (ℕ × ℕ))
  current_submodule_batch_index : ℕ
  submodules_in_process : List ((ℕ × ℕ) × SubResult)
  developed_submodules : List SubmoduleContent
  steps : Option (List String)
deriving Repr, DecidableEq, Inhabited

/-! ### Unit Decomposer and Balanced Batch Planner
(`initialize_submodule_processing`, `submodules.py` lines 161-270) -/

/-- The flat work-item list of `initialize_submodule_processing`
(lines 194-205): one entry per sub-unit, carrying the parent index and the
parent size (`total_submodules`).  Python iterates `enumerate(enhanced_modules)`
and guards `if module.submodules:`; an empty sub-unit list contributes
nothing either way. -/
def all_submodules (enhanced_modules : List EnhancedModule) : List SubItem :=
  (List.range enhanced_modules.length).flatMap (fun module_id =>
    if (enhanced_modules.getD module_id default).submodules = [] then []
    else (List.range (enhanced_modules.getD module_id default).submodules.length).map
      (fun sub_id =>
        { module_id := module_id
          sub_id := sub_id
          module_title := (enhanced_modules.getD module_id default).title
          submodule_title :=
            ((enhanced_modules.getD module_id default).submodules.getD sub_id default).title
          module_idx := module_id
          total_submodules := (enhanced_modules.getD module_id default).submodules.length }))

/-- The balanced distribution key of the planner (`distribution_key`,
lines 230-240): primary key `sub_id / max 1 total_submodules` (exact rational
arithmetic; Python computes the same quotient in IEEE floating point, whose
correctly-rounded results order identically for the parent sizes arising in
practice), secondary key `module_id`. -/
def distribution_key (item : SubItem) : ℚ × ℕ :=
  ((item.sub_id : ℚ) / ((max 1 item.total_submodules : ℕ) : ℚ), item.module_id)

/-- Python's tuple comparison on the distribution keys: lexicographic order,
first component strict, falling through to the second on ties.  This is the
order by which `all_submodules.sort(key=distribution_key)` sorts. -/
def key_le (a b : SubItem) : Prop :=
  (distribution_key a).1 < (distribution_key b).1 ∨
    ((distribution_key a).1 = (distribution_key b).1 ∧
      (distribution_key a).2 ≤ (distribution_key b).2)

instance : DecidableRel key_le := fun a b => by
  unfold key_le; exact inferInstance

instance : IsTrans SubItem key_le := by
  constructor
  intro a b c hab hbc
  rcases hab with h1 | ⟨h1, h2⟩ <;> rcases hbc with h3 | ⟨h3, h4⟩
  · exact Or.inl (lt_trans h1 h3)
  · exact Or.inl (lt_of_lt_of_eq h1 h3)
  · exact Or.inl (lt_of_eq_of_lt h1 h3)
  · exact Or.inr ⟨h1.trans h3, le_trans h2 h4⟩

instance : IsTotal SubItem key_le := by
  constructor
  intro a b
  rcases lt_trichotomy (distribution_key a).1 (distribution_key b).1 with h | h | h
  · exact Or.inl (Or.inl h)
  · rcases le_total (distribution_key a).2 (distribution_key b).2 with h2 | h2
    · exact Or.inl (Or.inr ⟨h, h2⟩)
    · exact Or.inr (Or.inr ⟨h.symm, h2⟩)
  · exact Or.inr (Or.inl h)

/-- Modelled from the spec: `batch_items` is imported from
`core.graph_nodes.helpers`, a file absent from `src/`.  Spec section 4.2 fixes
its behaviour: "After sorting, partition the sequence into consecutive chunks
of size `k` (last chunk may be shorter)", with the contract `k ≥ 1`. -/
def batch_items : List α → ℕ → List (List α)
  | [], _ => []
  | x :: xs, k => (x :: xs.take (k - 1)) :: batch_items (xs.drop (k - 1)) k
termination_by l _ => l.length
decreasing_by simp only [List.length_drop, List.length_cons]; omega

/-- Projection of a work item to its `(module_id, sub_id)` pair
(`all_pairs`, line 246). -/
def item_pair (item : SubItem) : ℕ × ℕ := (item.module_id, item.sub_id)

/-- `initialize_submodule_processing` (`submodules.py` lines 161-270), the
Decomposer plus Balanced Batch Planner.  Python's `list.sort` is a stable sort
by the key; a stable sort with respect to a total preorder is a unique
function of its input, so `List.insertionSort` (stable) embeds it faithfully.
The `module_counts` dict computed at lines 222-226 is dead code (never read)
and is omitted.  Only the `steps` log strings are not modelled. -/
def init_submodule_processing (st : LearningPathState) : LearningPathState :=
  if st.enhanced_modules = [] then
    { st with submodule_batches := []
              current_submodule_batch_index := 0
              submodules_in_process := []
              developed_submodules := [] }
  else
    let items := all_submodules st.enhanced_modules
    if items = [] then
      { st with submodule_batches := []
                current_submodule_batch_index := 0
                submodules_in_process := []
                developed_submodules := [] }
    else
      let sorted_items := List.insertionSort key_le items
      let all_pairs := sorted_items.map item_pair
      { st with submodule_batches := batch_items all_pairs st.submodule_parallel_count
                current_submodule_batch_index := 0
                submodules_in_process := []
                developed_submodules := [] }

/-! ### Bounded-Concurrency Executor and Result Reducer
(`process_submodule_batch` and `process_single_submodule`,
`submodules.py` lines 272-545) -/

/-- The payload a successful unit-processor run produces (the data that
`process_single_submodule` gathers in its steps 1-3 before packaging the
`completed` outcome, lines 473-533). -/
structure SubPayload where
  search_queries : List SearchQuery
  search_results : List SearchResult
  content : String
deriving Repr, DecidableEq, Inhabited

/-- The external unit-processor (spec section 6): the composition of query
generation, search and content development invoked by
`process_single_submodule` for one `(module_id, sub_id)`.  `Except.error e`
models an exception with message `e` escaping those steps. -/
def Processor : Type := ℕ → ℕ → Except String SubPayload

/-- `process_single_submodule` (`submodules.py` lines 433-545): run the
processor inside `try/except`; a successful run yields a `completed` outcome
carrying the payload, an exception is converted to an `error` outcome for
this item only (lines 534-545).  The function is total: no exception crosses
this boundary. -/
def process_single_submodule (proc : Processor) (module_id sub_id : ℕ) : SubResult :=
  match proc module_id sub_id with
  | .ok payload =>
      .completed module_id sub_id payload.search_queries payload.search_results payload.content
  | .error e => .error module_id sub_id e

/-- Lookup in the `submodules_in_process` association list (Python dict
access by key). -/
def record_lookup (key : ℕ × ℕ) : List ((ℕ × ℕ) × SubResult) → Option SubResult
  | [] => none
  | e :: rest => if e.1 = key then some e.2 else record_lookup key rest

/-- `key in submodules_in_process and submodules_in_process[key].get("status")
== "completed"` (`submodules.py` line 317). -/
def is_completed (r : Option SubResult) : Bool :=
  match r with
  | some result => result.status = "completed"
  | none => false

/-- The bounds check of `submodules.py` line 321: `module_id <
len(enhanced_modules) and sub_id < len(enhanced_modules[module_id].submodules)`. -/
def submodule_in_bounds (enhanced_modules : List EnhancedModule) (key : ℕ × ℕ) : Bool :=
  decide (key.1 < enhanced_modules.length) &&
    decide (key.2 < (enhanced_modules.getD key.1 default).submodules.length)

/-- The keys of the current batch for which the Executor creates a processing
task (`submodules.py` lines 313-333): entries already `completed` are skipped
(line 317), entries with out-of-bounds indices are logged and skipped
(line 333); the rest are launched. -/
def batch_task_keys (enhanced_modules : List EnhancedModule)
    (submodules_in_process : List ((ℕ × ℕ) × SubResult))
    (batch : List (ℕ × ℕ)) : List (ℕ × ℕ) :=
  batch.filter (fun key =>
    !(is_completed (record_lookup key submodules_in_process)) &&
      submodule_in_bounds enhanced_modules key)

/-- The batch the Executor is about to process:
`sub_batches[current_index]` (`submodules.py` line 304). -/
def current_batch (st : LearningPathState) : List (ℕ × ℕ) :=
  st.submodule_batches.getD st.current_submodule_batch_index []

/-- The "map" phase (`submodules.py` lines 326-347): one outcome per launched
task, in launch order (`asyncio.gather` preserves the order of its inputs). -/
def batch_results (proc : Processor) (task_keys : List (ℕ × ℕ)) : List SubResult :=
  task_keys.map (fun key => process_single_submodule proc key.1 key.2)

/-- The "reduce" phase for the record map (`submodules.py` lines 360-374):
every outcome — `completed` or `error` status alike — is written into
`submodules_in_process` under its own `(module_id, sub_id)` key. -/
def reduce_record (results : List SubResult)
    (submodules_in_process : List ((ℕ × ℕ) × SubResult)) :
    List ((ℕ × ℕ) × SubResult) :=
  results.foldl (fun acc r => (r.key, r) :: acc) submodules_in_process

/-- One iteration of the `developed_submodules` append loop
(`submodules.py` lines 400-416): a batch entry contributes a finalized
`SubmoduleContent` iff its record is in `completed` status and its indices
are within hierarchy bounds; title and description are copied from the
hierarchy, the payload from the record. -/
def developed_entry (enhanced_modules : List EnhancedModule)
    (record : List ((ℕ × ℕ) × SubResult)) (key : ℕ × ℕ) : Option SubmoduleContent :=
  match record_lookup key record with
  | some (SubResult.completed _ _ qs rs c) =>
      if key.1 < enhanced_modules.length then
        if key.2 < (enhanced_modules.getD key.1 default).submodules.length then
          some { module_id := key.1
                 submodule_id := key.2
                 title :=
                   ((enhanced_modules.getD key.1 default).submodules.getD key.2 default).title
                 description :=
                   ((enhanced_modules.getD key.1 default).submodules.getD key.2 default).description
                 search_queries := qs
                 search_results := rs
                 content := c }
        else none
      else none
  | _ => none

/-- `process_submodule_batch` (`submodules.py` lines 272-431): one
Executor+Reducer cycle.

* If `current_index >= len(sub_batches)` the function returns only a log step
  (line 301): the state is unchanged.
* Otherwise it launches one task per eligible batch entry (`batch_task_keys`),
  gathers the outcomes (`batch_results`), writes each outcome into
  `submodules_in_process` (`reduce_record`), advances the batch index by one
  (line 393), and appends one finalized `SubmoduleContent` per batch entry
  whose record is now `completed` and in bounds (`developed_entry`).
* The `try/except` at lines 341-386 never fires: `process_single_submodule`
  is total, so `asyncio.gather` cannot raise.
* Only the `steps` log strings are not modelled. -/
def process_submodule_batch (proc : Processor) (st : LearningPathState) :
    LearningPathState :=
  if st.submodule_batches.length ≤ st.current_submodule_batch_index then
    st
  else
    let batch := current_batch st
    let task_keys := batch_task_keys st.enhanced_modules st.submodules_in_process batch
    let new_record := reduce_record (batch_results proc task_keys) st.submodules_in_process
    { st with submodules_in_process := new_record
              current_submodule_batch_index := st.current_submodule_batch_index + 1
              developed_submodules :=
                st.developed_submodules ++
                  batch.filterMap (developed_entry st.enhanced_modules new_record) }

/-! ### Batch-Continuation State Machine
(`check_submodule_batch_processing`, `submodules.py` lines 1059-1136, and the
conditional back-edge of `build_graph`, `src/graph_builder.py` lines 42-49) -/

/-- `check_submodule_batch_processing`: the routing decision.  The two
arguments are the `state.get(...)` reads of lines 1069-1070 (`None` when the
key is absent).  Everything else in the function is logging and statistics
and does not affect the returned route string. -/
def check_submodule_batch_processing (current_index : Option ℕ)
    (batches : Option (List (List (ℕ × ℕ)))) : String :=
  match current_index, batches with
  | some i, some bs =>
      if bs.length ≤ i then "all_batches_processed" else "continue_processing"
  | _, _ => "all_batches_processed"

/-- The driving loop of `build_graph`: the conditional edge re-enters
`process_submodule_batch` until the check routes to finalization.
`run_batch_cycles proc st n` is the state after `n` Executor+Reducer cycles. -/
def run_batch_cycles (proc : Processor) (st : LearningPathState) : ℕ → LearningPathState
  | 0 => st
  | n + 1 => process_submodule_batch proc (run_batch_cycles proc st n)

/-! ### Finalizer
(`finalize_enhanced_learning_path`, `submodules.py` lines 995-1057) -/

/-- One entry of the `submodule_data` list (`submodules.py` lines 1028-1036).
The `connections` field (a `getattr` defaulting to `{}` on a model without
that attribute, hence constantly empty) is omitted. -/
structure SubmoduleData where
  id : ℕ
  title : String
  description : String
  content : String
  order : ℕ
  summary : String
deriving Repr, DecidableEq, Inhabited

/-- One entry of the `final_modules` list (`submodules.py` lines 1037-1047).
The `getattr`-defaulted metadata fields (`core_concept`, `learning_objective`,
`prerequisites`, `key_components`, `expected_outcomes`) are constant defaults
on the modelled `EnhancedModule` and are omitted. -/
structure ModuleData where
  id : ℕ
  title : String
  description : String
  submodules : List SubmoduleData
deriving Repr, DecidableEq, Inhabited

/-- The `final_learning_path` dict.  `execution_steps` is present only on the
success path, `error` only on the exception path; `Option` models key
presence. -/
structure FinalLearningPath where
  topic : String
  modules : List ModuleData
  execution_steps : Option (List String)
  error : Option String
deriving Repr, DecidableEq, Inhabited

/-- Sort order used on each per-module group (`submodules.py` line 1021:
`sort(key=lambda s: s.submodule_id)`). -/
def submodule_le (a b : SubmoduleContent) : Prop :=
  a.submodule_id ≤ b.submodule_id

instance : DecidableRel submodule_le := fun a b => by
  unfold submodule_le; exact inferInstance

instance : IsTrans SubmoduleContent submodule_le :=
  ⟨fun _ _ _ h1 h2 => le_trans h1 h2⟩

instance : IsTotal SubmoduleContent submodule_le :=
  ⟨fun a b => le_total a.submodule_id b.submodule_id⟩

/-- The per-module grouping of `module_to_subs` (`submodules.py` lines
1017-1019): iterating `developed_submodules` in order and appending via
`setdefault` makes each group the in-order sublist of results with that
`module_id`. -/
def module_to_subs (developed : List SubmoduleContent) (module_id : ℕ) :
    List SubmoduleContent :=
  developed.filter (fun s => s.module_id = module_id)

/-- `sub.content[:200].strip() + "..." if sub.content else ""`
(`submodules.py` line 1027; the modelled `SubmoduleContent` has no `summary`
attribute, so the `hasattr` branch is never taken). -/
def submodule_summary (content : String) : String :=
  if content = "" then "" else (content.take 200).trim ++ "..."

/-- The `submodule_data` entry built for one result
(`submodules.py` lines 1028-1036). -/
def sub_to_data (sub : SubmoduleContent) : SubmoduleData :=
  { id := sub.submodule_id
    title := sub.title
    description := sub.description
    content := sub.content
    order := sub.submodule_id + 1
    summary := submodule_summary sub.content }

/-- The body of the `try` block of `finalize_enhanced_learning_path`
(`submodules.py` lines 1013-1054).  The one fallible operation in the
assembly that the scheduler's own state can trigger is the unguarded
`state["steps"]` access at line 1049 (every other state read uses a defaulted
`.get`); `Except.error` models that exception. -/
def finalize_body (st : LearningPathState) : Except String FinalLearningPath :=
  if st.developed_submodules = [] then
    .ok { topic := st.user_topic, modules := [], execution_steps := none, error := none }
  else
    let final_modules := (List.range st.enhanced_modules.length).map (fun module_id =>
      let module := st.enhanced_modules.getD module_id default
      let subs := List.insertionSort submodule_le
        (module_to_subs st.developed_submodules module_id)
      { id := module_id
        title := module.title
        description := module.description
        submodules := subs.map sub_to_data : ModuleData })
    match st.steps with
    | some steps =>
        .ok { topic := st.user_topic, modules := final_modules,
              execution_steps := some steps, error := none }
    | none => .error "KeyError: steps"

/-- `finalize_enhanced_learning_path` (`submodules.py` lines 995-1057): the
assembly wrapped in `try/except`; an exception yields the degenerate output
of line 1057 (topic preserved, empty module list, explicit error field). -/
def finalize_enhanced_learning_path (st : LearningPathState) : FinalLearningPath :=
  match finalize_body st with
  | .ok result => result
  | .error e =>
      { topic := st.user_topic, modules := [], execution_steps := none, error := some e }

/-- The set of `(module_id, sub_id)` pairs present in the hierarchy, written
from the spec's words (section 3 invariant and section 8 "Coverage") for
comparison with what the planner produces. -/
def hierarchy_pairs (modules : List EnhancedModule) : List (ℕ × ℕ) :=
  (List.range modules.length).flatMap (fun module_id =>
    (List.range (modules.getD module_id default).submodules.length).map
      (fun sub_id => (module_id, sub_id)))

/-- Spec-side sort key on bare pairs (section 4.2): `relative_position =
sub_id / parent_size` with `parent_size ≥ 1`, tie-broken by `module_id`. -/
def pair_key (modules : List EnhancedModule) (p : ℕ × ℕ) : ℚ × ℕ :=
  ((p.2 : ℚ) / ((max 1 (modules.getD p.1 default).submodules.length : ℕ) : ℚ), p.1)

/-- Lexicographic comparison of spec-side pair keys. -/
def pair_key_le (modules : List EnhancedModule) (a b : ℕ × ℕ) : Prop :=
  (pair_key modules a).1 < (pair_key modules b).1 ∨
    ((pair_key modules a).1 = (pair_key modules b).1 ∧
      (pair_key modules a).2 ≤ (pair_key modules b).2)

/-! ### Concrete states used to instantiate the theorems -/

/-- The scenario hierarchy of spec section 8: 2 units with sub-unit counts
`[3, 1]`. -/
def demo_modules : List EnhancedModule :=
  [{ title := "Unit0", description := "d0",
     submodules := [⟨"s00", "x"⟩, ⟨"s01", "x"⟩, ⟨"s02", "x"⟩] },
   { title := "Unit1", description := "d1", submodules := [⟨"s10", "x"⟩] }]

/-- A pipeline state holding the scenario hierarchy with batch size 2,
before batch planning. -/
def base_state : LearningPathState :=
  { user_topic := "topic"
    enhanced_modules := demo_modules
    submodule_parallel_count := 2
    submodule_batches := []
    current_submodule_batch_index := 0
    submodules_in_process := []
    developed_submodules := []
    steps := some ["planned"] }

/-- A state whose single batch is entirely `completed` in the record. -/
def completed_state : LearningPathState :=
  { user_topic := "topic"
    enhanced_modules := [{ title := "Unit0", description := "d0",
                           submodules := [⟨"s00", "x"⟩] }]
    submodule_parallel_count := 2
    submodule_batches := [[(0, 0)]]
    current_submodule_batch_index := 0
    submodules_in_process := [((0, 0), .completed 0 0 [] [] "done")]
    developed_submodules := []
    steps := some ["planned"] }

/-- A state with a two-entry batch, nothing processed yet. -/
def fresh_batch_state : LearningPathState :=
  { user_topic := "topic"
    enhanced_modules := [{ title := "Unit0", description := "d0",
                           submodules := [⟨"s00", "x"⟩, ⟨"s01", "x"⟩] }]
    submodule_parallel_count := 2
    submodule_batches := [[(0, 0), (0, 1)]]
    current_submodule_batch_index := 0
    submodules_in_process := []
    developed_submodules := []
    steps := some ["planned"] }

/-- A state whose batch references a module index outside the hierarchy. -/
def malformed_state : LearningPathState :=
  { user_topic := "topic"
    enhanced_modules := [{ title := "Unit0", description := "d0",
                           submodules := [⟨"s00", "x"⟩] }]
    submodule_parallel_count := 2
    submodule_batches := [[(5, 0)]]
    current_submodule_batch_index := 0
    submodules_in_process := []
    developed_submodules := []
    steps := some ["planned"] }

/-- A unit-processor that fails on `(0, 0)` and succeeds elsewhere. -/
def proc_mixed : Processor := fun module_id sub_id =>
  if module_id = 0 ∧ sub_id = 0 then .error "boom"
  else .ok { search_queries := [], search_results := [], content := "ok" }

/-- A unit-processor that always fails. -/
def proc_fail : Processor := fun _ _ => .error "down"

/-- A unit-processor that always succeeds. -/
def proc_ok : Processor := fun _ _ =>
  .ok { search_queries := [], search_results := [], content := "c" }

/-- A state with one unit in the hierarchy but an empty developed-results
list (every sub-unit errored or none were batched). -/
def no_results_state : LearningPathState :=
  { user_topic := "t"
    enhanced_modules := [{ title := "Unit0", description := "d0",
                           submodules := [⟨"s00", "x"⟩] }]
    submodule_parallel_count := 2
    submodule_batches := [[(0, 0)]]
    current_submodule_batch_index := 1
    submodules_in_process := [((0, 0), .error 0 0 "boom")]
    developed_submodules := []
    steps := some ["planned"] }

/-- A state with two developed results arriving out of `sub_id` order. -/
def unordered_results_state : LearningPathState :=
  { user_topic := "t"
    enhanced_modules := [{ title := "Unit0", description := "d0",
                           submodules := [⟨"s00", "x"⟩, ⟨"s01", "y"⟩] }]
    submodule_parallel_count := 2
    submodule_batches := [[(0, 0), (0, 1)]]
    current_submodule_batch_index := 1
    submodules_in_process := []
    developed_submodules :=
      [{ module_id := 0, submodule_id := 1, title := "s01", description := "y",
         search_queries := [], search_results := [], content := "c1" },
       { module_id := 0, submodule_id := 0, title := "s00", description := "x",
         search_queries := [], search_results := [], content := "c0" }]
    steps := some ["planned"] }

/-- A state in which final assembly fails: results exist but the `steps` key
is absent, so `state["steps"]` raises during assembly. -/
def broken_steps_state : LearningPathState :=
  { unordered_results_state with steps := none }

/-! ### Helper lemmas -/

theorem batch_items_flatten (l : List α) (k : ℕ) : (batch_items l k).flatten = l := by
  induction l, k using batch_items.induct with
  | case1 k => simp [batch_items]
  | case2 x xs k ih => simp [batch_items, ih]

theorem batch_items_length (l : List α) (k : ℕ) :
    1 ≤ k → (batch_items l k).length = (l.length + k - 1) / k := by
  induction l, k using batch_items.induct with
  | case1 k =>
    intro hk
    simp only [batch_items, List.length_nil, Nat.zero_add]
    rw [Nat.div_eq_of_lt (by omega)]
  | case2 x xs k ih =>
    intro hk
    simp only [batch_items, List.length_cons, List.length_drop] at ih ⊢
    rw [ih hk]
    rcases le_or_lt (k - 1) xs.length with h | h
    · have h1 : xs.length - (k - 1) + k - 1 = xs.length := by omega
      have h2 : xs.length + 1 + k - 1 = xs.length + k := by omega
      rw [h1, h2, Nat.add_div_right _ (by omega)]
    · have h1 : xs.length - (k - 1) + k - 1 = k - 1 := by omega
      have h2 : xs.length + 1 + k - 1 = xs.length + k := by omega
      rw [h1, h2, Nat.add_div_right _ (by omega),
        Nat.div_eq_of_lt (by omega), Nat.div_eq_of_lt (by omega)]

theorem batch_items_length_le (l : List α) (k : ℕ) :
    1 ≤ k → ∀ b ∈ batch_items l k, b.length ≤ k := by
  induction l, k using batch_items.induct with
  | case1 k => intro _ b hb; simp [batch_items] at hb
  | case2 x xs k ih =>
    intro hk b hb
    simp only [batch_items, List.mem_cons] at hb
    rcases hb with rfl | hb
    · simp only [List.length_cons, List.length_take]
      omega
    · exact ih hk b hb

theorem mem_all_submodules {modules : List EnhancedModule} {it : SubItem}
    (h : it ∈ all_submodules modules) :
    it.module_id < modules.length ∧
    it.total_submodules = (modules.getD it.module_id default).submodules.length ∧
    it.sub_id < (modules.getD it.module_id default).submodules.length := by
  unfold all_submodules at h
  simp only [List.mem_flatMap, List.mem_range] at h
  obtain ⟨m, hm, hit⟩ := h
  split at hit
  · exact absurd hit (List.not_mem_nil it)
  · simp only [List.mem_map, List.mem_range] at hit
    obtain ⟨s, hs, rfl⟩ := hit
    exact ⟨hm, rfl, hs⟩

theorem map_item_pair_all_submodules (modules : List EnhancedModule) :
    (all_submodules modules).map item_pair = hierarchy_pairs modules := by
  unfold all_submodules hierarchy_pairs
  rw [List.map_flatMap]
  congr 1
  funext m
  split
  · next he => rw [he]; rfl
  · rw [List.map_map]
    rfl

theorem hierarchy_pairs_nodup (modules : List EnhancedModule) :
    (hierarchy_pairs modules).Nodup := by
  unfold hierarchy_pairs
  rw [List.nodup_flatMap]
  constructor
  · intro m _
    exact (List.nodup_range _).map (fun a b hab => by simpa using hab)
  · refine (List.pairwise_lt_range _).imp ?_
    intro a b hab
    intro p hp1 hp2
    simp only [List.mem_map, List.mem_range] at hp1 hp2
    obtain ⟨s1, _, rfl⟩ := hp1
    obtain ⟨s2, _, h2⟩ := hp2
    exact absurd (congrArg Prod.fst h2).symm (by simpa using hab.ne)

theorem init_batches (st : LearningPathState) :
    (init_submodule_processing st).submodule_batches =
      batch_items ((List.insertionSort key_le (all_submodules st.enhanced_modules)).map item_pair)
        st.submodule_parallel_count := by
  unfold init_submodule_processing
  by_cases h1 : st.enhanced_modules = []
  · rw [if_pos h1]
    have : all_submodules st.enhanced_modules = [] := by
      rw [h1]; rfl
    simp [this, batch_items]
  · rw [if_neg h1]
    by_cases h2 : all_submodules st.enhanced_modules = []
    · rw [if_pos h2]
      simp [h2, batch_items]
    · rw [if_neg h2]

theorem init_index (st : LearningPathState) :
    (init_submodule_processing st).current_submodule_batch_index = 0 := by
  unfold init_submodule_processing
  by_cases h1 : st.enhanced_modules = []
  · rw [if_pos h1]
  · rw [if_neg h1]
    by_cases h2 : all_submodules st.enhanced_modules = []
    · rw [if_pos h2]
    · rw [if_neg h2]

theorem pair_key_item {modules : List EnhancedModule} {it : SubItem}
    (h : it ∈ all_submodules modules) :
    pair_key modules (item_pair it) = distribution_key it := by
  obtain ⟨_, h2, _⟩ := mem_all_submodules h
  unfold pair_key distribution_key item_pair
  rw [h2]

theorem process_single_submodule_key (proc : Processor) (m s : ℕ) :
    (process_single_submodule proc m s).key = (m, s) := by
  unfold process_single_submodule
  cases proc m s <;> rfl

theorem record_lookup_reduce (proc : Processor) (keys : List (ℕ × ℕ))
    (rec0 : List ((ℕ × ℕ) × SubResult)) (key : ℕ × ℕ) :
    record_lookup key (reduce_record (batch_results proc keys) rec0) =
      if key ∈ keys then some (process_single_submodule proc key.1 key.2)
      else record_lookup key rec0 := by
  induction keys generalizing rec0 with
  | nil => simp [reduce_record, batch_results]
  | cons x xs ih =>
    simp only [reduce_record, batch_results, List.map_cons, List.foldl_cons] at ih ⊢
    rw [ih ((((process_single_submodule proc x.1 x.2).key),
      process_single_submodule proc x.1 x.2) :: rec0)]
    by_cases hxs : key ∈ xs
    · simp [hxs]
    · by_cases hx : key = x
      · subst hx
        simp [hxs, record_lookup, process_single_submodule_key]
      · have : key ∉ (x :: xs) := by
          simp [hx, hxs]
        simp only [if_neg hxs, if_neg this]
        rw [record_lookup, process_single_submodule_key]
        simp only [Prod.mk.eta]
        rw [if_neg (fun hc => hx hc.symm)]

theorem process_done (proc : Processor) (st : LearningPathState)
    (h : st.submodule_batches.length ≤ st.current_submodule_batch_index) :
    process_submodule_batch proc st = st := by
  unfold process_submodule_batch
  rw [if_pos h]

theorem process_batches (proc : Processor) (st : LearningPathState) :
    (process_submodule_batch proc st).submodule_batches = st.submodule_batches := by
  unfold process_submodule_batch
  split <;> rfl

theorem process_index (proc : Processor) (st : LearningPathState) :
    (process_submodule_batch proc st).current_submodule_batch_index =
      if st.submodule_batches.length ≤ st.current_submodule_batch_index then
        st.current_submodule_batch_index
      else st.current_submodule_batch_index + 1 := by
  unfold process_submodule_batch
  split <;> rfl

theorem process_record (proc : Processor) (st : LearningPathState)
    (h : ¬ st.submodule_batches.length ≤ st.current_submodule_batch_index) :
    (process_submodule_batch proc st).submodules_in_process =
      reduce_record
        (batch_results proc
          (batch_task_keys st.enhanced_modules st.submodules_in_process (current_batch st)))
        st.submodules_in_process := by
  unfold process_submodule_batch
  rw [if_neg h]

theorem process_developed (proc : Processor) (st : LearningPathState)
    (h : ¬ st.submodule_batches.length ≤ st.current_submodule_batch_index) :
    (process_submodule_batch proc st).developed_submodules =
      st.developed_submodules ++
        (current_batch st).filterMap
          (developed_entry st.enhanced_modules
            (process_submodule_batch proc st).submodules_in_process) := by
  rw [process_record proc st h]
  unfold process_submodule_batch
  rw [if_neg h]

theorem developed_entry_some {modules : List EnhancedModule}
    {record : List ((ℕ × ℕ) × SubResult)} {key : ℕ × ℕ} {d : SubmoduleContent}
    (h : developed_entry modules record key = some d) :
    d.module_id = key.1 ∧ d.submodule_id = key.2 ∧
    submodule_in_bounds modules (d.module_id, d.submodule_id) = true := by
  unfold developed_entry at h
  split at h
  · next m s qs rs c heq =>
    by_cases h1 : key.1 < modules.length
    · rw [if_pos h1] at h
      by_cases h2 : key.2 < (modules.getD key.1 default).submodules.length
      · rw [if_pos h2] at h
        injection h with h
        subst h
        refine ⟨rfl, rfl, ?_⟩
        simp only [submodule_in_bounds]
        rw [Bool.and_eq_true, decide_eq_true_iff, decide_eq_true_iff]
        exact ⟨h1, h2⟩
      · rw [if_neg h2] at h
        exact absurd h (by simp)
    · rw [if_neg h1] at h
      exact absurd h (by simp)
  · exact absurd h (by simp)

theorem filterMap_length_of_isSome {f : α → Option β} {l : List α}
    (h : ∀ a ∈ l, (f a).isSome) : (l.filterMap f).length = l.length := by
  induction l with
  | nil => rfl
  | cons x xs ih =>
    rcases ho : f x with _ | b
    · exact absurd (ho ▸ h x (List.mem_cons_self x xs)) (by simp)
    · rw [List.filterMap_cons_some ho, List.length_cons, List.length_cons,
        ih (fun a ha => h a (List.mem_cons_of_mem x ha))]

theorem finalize_modules_success (st : LearningPathState) (s : List String)
    (hdev : st.developed_submodules ≠ []) (hst : st.steps = some s) :
    (finalize_enhanced_learning_path st).modules =
      (List.range st.enhanced_modules.length).map (fun module_id =>
        { id := module_id
          title := (st.enhanced_modules.getD module_id default).title
          description := (st.enhanced_modules.getD module_id default).description
          submodules := (List.insertionSort submodule_le
            (module_to_subs st.developed_submodules module_id)).map sub_to_data :
          ModuleData }) := by
  unfold finalize_enhanced_learning_path finalize_body
  rw [if_neg hdev, hst]

theorem run_cycles_batches (proc : Processor) (st : LearningPathState) (n : ℕ) :
    (run_batch_cycles proc st n).submodule_batches = st.submodule_batches := by
  induction n with
  | zero => rfl
  | succ n ih => rw [run_batch_cycles, process_batches, ih]

theorem run_cycles_index (proc : Processor) (st : LearningPathState)
    (h0 : st.current_submodule_batch_index = 0) :
    ∀ j, j ≤ st.submodule_batches.length →
      (run_batch_cycles proc st j).current_submodule_batch_index = j := by
  intro j
  induction j with
  | zero => intro _; exact h0
  | succ j ih =>
    intro hj
    rw [run_batch_cycles, process_index, run_cycles_batches,
      ih (Nat.le_of_succ_le hj)]
    rw [if_neg (by omega)]

/-! ### The claims -/

set_option maxRecDepth 8000

/-- C1: the Balanced Batch Planner sorts the flat WorkItem sequence ascending
by the key `(relative_position, module_id)` with `relative_position = sub_id /
parent_size` (`parent_size ≥ 1`), then partitions the sorted sequence into
consecutive chunks of size `k`; in particular, for the hierarchy with 2 units
of sub-unit counts `[3, 1]` and `k = 2`, the produced batch sequence is
exactly `[[(0,0),(1,0)], [(0,1),(0,2)]]`.  (The flattened batch sequence is
pairwise ordered by the spec's key; chunk sizes and coverage are the subject
of `planner_coverage`.) -/
theorem planner_sorts_and_chunks :
    (∀ st : LearningPathState,
      ((init_submodule_processing st).submodule_batches.flatten).Pairwise
        (pair_key_le st.enhanced_modules)) ∧
    (init_submodule_processing base_state).submodule_batches
      = [[(0, 0), (1, 0)], [(0, 1), (0, 2)]] := by
  constructor
  · intro st
    rw [init_batches, batch_items_flatten, List.pairwise_map]
    have hsorted : List.Sorted key_le
        (List.insertionSort key_le (all_submodules st.enhanced_modules)) :=
      List.sorted_insertionSort key_le _
    refine List.Pairwise.imp_of_mem ?_ hsorted
    intro a b ha hb hab
    rw [List.mem_insertionSort] at ha hb
    unfold pair_key_le
    rw [pair_key_item ha, pair_key_item hb]
    exact hab
  · rw [init_batches]
    have hsorted : (List.insertionSort key_le
          (all_submodules base_state.enhanced_modules)).map item_pair
        = [(0, 0), (1, 0), (0, 1), (0, 2)] := by
      norm_num [base_state, demo_modules, all_submodules, List.range_succ,
        List.insertionSort, List.orderedInsert, key_le, distribution_key, item_pair]
    rw [hsorted, show base_state.submodule_parallel_count = 2 from rfl]
    simp [batch_items]

/-- C2: for every input hierarchy, the union of all batch entries produced by
the planner equals exactly the set of `(module_id, sub_id)` pairs of the
sub-units present in the hierarchy, each pair appearing exactly once across
all batches, and every batch has size at most the configured parallelism. -/
theorem planner_coverage (st : LearningPathState)
    (hk : 1 ≤ st.submodule_parallel_count) :
    ((init_submodule_processing st).submodule_batches.flatten).Perm
        (hierarchy_pairs st.enhanced_modules) ∧
    (hierarchy_pairs st.enhanced_modules).Nodup ∧
    ((init_submodule_processing st).submodule_batches.flatten).Nodup ∧
    (∀ b ∈ (init_submodule_processing st).submodule_batches,
      b.length ≤ st.submodule_parallel_count) := by
  have hperm : ((init_submodule_processing st).submodule_batches.flatten).Perm
      (hierarchy_pairs st.enhanced_modules) := by
    rw [init_batches, batch_items_flatten, ← map_item_pair_all_submodules]
    exact (List.perm_insertionSort key_le _).map item_pair
  refine ⟨hperm, hierarchy_pairs_nodup _, hperm.nodup_iff.mpr (hierarchy_pairs_nodup _), ?_⟩
  rw [init_batches]
  exact batch_items_length_le _ _ hk

/-- C2 witness: instantiation at the scenario state with parallelism 2. -/
theorem planner_coverage_witness :
    1 ≤ base_state.submodule_parallel_count ∧
    (((init_submodule_processing base_state).submodule_batches.flatten).Perm
        (hierarchy_pairs base_state.enhanced_modules) ∧
      (hierarchy_pairs base_state.enhanced_modules).Nodup ∧
      ((init_submodule_processing base_state).submodule_batches.flatten).Nodup ∧
      (∀ b ∈ (init_submodule_processing base_state).submodule_batches,
        b.length ≤ base_state.submodule_parallel_count)) :=
  ⟨by decide, planner_coverage base_state (by decide)⟩

/-- C3 counterexample: in the state `no_results_state` the hierarchy holds one
unit, but every sub-unit errored so the developed-results list is empty; the
Finalizer then takes the early return of `submodules.py` line 1016 and emits
an empty module list, dropping the unit — refuting "the Finalizer never drops
a Unit". -/
theorem finalizer_drops_unit_counterexample :
    ¬ (∀ module_id, module_id < no_results_state.enhanced_modules.length →
        ∃ md ∈ (finalize_enhanced_learning_path no_results_state).modules,
          md.id = module_id) := by
  intro h
  obtain ⟨md, hmem, _⟩ := h 0 (by decide)
  have hempty : (finalize_enhanced_learning_path no_results_state).modules = [] := by decide
  rw [hempty] at hmem
  exact absurd hmem (List.not_mem_nil md)

/-- C3 amended: provided at least one developed sub-unit result exists (and
finalization does not fail), every unit of the original hierarchy appears in
the Finalizer's output, and a unit with zero surviving results appears with
an empty sub-unit list. -/
theorem finalizer_keeps_units (st : LearningPathState)
    (hdev : st.developed_submodules ≠ []) (hsteps : st.steps ≠ none) :
    (finalize_enhanced_learning_path st).modules.length = st.enhanced_modules.length ∧
    ∀ module_id, module_id < st.enhanced_modules.length →
      ∃ md ∈ (finalize_enhanced_learning_path st).modules,
        md.id = module_id ∧
        md.title = (st.enhanced_modules.getD module_id default).title ∧
        (module_to_subs st.developed_submodules module_id = [] → md.submodules = []) := by
  rcases hst : st.steps with _ | s
  · exact absurd hst hsteps
  · have hfin := finalize_modules_success st s hdev hst
    constructor
    · rw [hfin, List.length_map, List.length_range]
    · intro module_id hmid
      rw [hfin]
      refine ⟨_, List.mem_map_of_mem _ (List.mem_range.mpr hmid), rfl, rfl, ?_⟩
      intro hgroup
      show (List.insertionSort submodule_le
        (module_to_subs st.developed_submodules module_id)).map sub_to_data = []
      rw [hgroup]
      rfl

/-- C3 amended witness: a state with one developed result and the `steps`
key present. -/
theorem finalizer_keeps_units_witness :
    unordered_results_state.developed_submodules ≠ [] ∧
    unordered_results_state.steps ≠ none ∧
    ((finalize_enhanced_learning_path unordered_results_state).modules.length
        = unordered_results_state.enhanced_modules.length ∧
      ∀ module_id, module_id < unordered_results_state.enhanced_modules.length →
        ∃ md ∈ (finalize_enhanced_learning_path unordered_results_state).modules,
          md.id = module_id ∧
          md.title = (unordered_results_state.enhanced_modules.getD module_id default).title ∧
          (module_to_subs unordered_results_state.developed_submodules module_id = [] →
            md.submodules = [])) :=
  ⟨by decide, by decide,
    finalizer_keeps_units unordered_results_state (by decide) (by decide)⟩

/-- C4: on a batch all of whose entries are already marked `completed` in the
record, the Executor creates zero processing tasks, and the whole
Executor+Reducer cycle is independent of the unit-processor — zero processor
calls are performed. -/
theorem executor_skips_completed (st : LearningPathState)
    (h : ∀ key ∈ current_batch st,
      is_completed (record_lookup key st.submodules_in_process) = true) :
    batch_task_keys st.enhanced_modules st.submodules_in_process (current_batch st) = [] ∧
    ∀ proc1 proc2 : Processor,
      process_submodule_batch proc1 st = process_submodule_batch proc2 st := by
  have ht : batch_task_keys st.enhanced_modules st.submodules_in_process
      (current_batch st) = [] := by
    unfold batch_task_keys
    rw [List.filter_eq_nil_iff]
    intro key hk
    rw [h key hk]
    simp
  refine ⟨ht, ?_⟩
  intro proc1 proc2
  by_cases hdone : st.submodule_batches.length ≤ st.current_submodule_batch_index
  · rw [process_done proc1 st hdone, process_done proc2 st hdone]
  · unfold process_submodule_batch
    rw [if_neg hdone, if_neg hdone]
    simp only [ht]
    rfl

/-- C4 witness: a state whose single batch entry is already `completed`; a
failing and a succeeding processor give identical cycle results. -/
theorem executor_skips_completed_witness :
    (∀ key ∈ current_batch completed_state,
      is_completed (record_lookup key completed_state.submodules_in_process) = true) ∧
    batch_task_keys completed_state.enhanced_modules completed_state.submodules_in_process
      (current_batch completed_state) = [] ∧
    process_submodule_batch proc_fail completed_state
      = process_submodule_batch proc_ok completed_state := by
  have h := executor_skips_completed completed_state (by decide)
  exact ⟨by decide, h.1, h.2 proc_fail proc_ok⟩

/-- C5: if the unit-processor fails for one `(module_id, sub_id)` of a batch
of size at least 2, the Executor (which is total — it never raises) records
an error-status outcome for that item only, and every other launched entry's
record is exactly the outcome its own processor run produced, unaffected by
the failure. -/
theorem executor_error_isolation (st : LearningPathState) (proc : Processor)
    (m0 s0 : ℕ) (msg : String)
    (hfail : proc m0 s0 = .error msg)
    (hmem : (m0, s0) ∈ batch_task_keys st.enhanced_modules st.submodules_in_process
      (current_batch st))
    (hsize : 2 ≤ (current_batch st).length)
    (hactive : st.current_submodule_batch_index < st.submodule_batches.length) :
    record_lookup (m0, s0) (process_submodule_batch proc st).submodules_in_process
        = some (SubResult.error m0 s0 msg) ∧
    ∀ key ∈ batch_task_keys st.enhanced_modules st.submodules_in_process (current_batch st),
      key ≠ (m0, s0) →
        record_lookup key (process_submodule_batch proc st).submodules_in_process
          = some (process_single_submodule proc key.1 key.2) := by
  have hnd : ¬ st.submodule_batches.length ≤ st.current_submodule_batch_index := by omega
  constructor
  · rw [process_record proc st hnd, record_lookup_reduce, if_pos hmem]
    unfold process_single_submodule
    rw [hfail]
  · intro key hkey _
    rw [process_record proc st hnd, record_lookup_reduce, if_pos hkey]

/-- C5 witness: a two-entry batch with a processor failing exactly on
`(0, 0)`. -/
theorem executor_error_isolation_witness :
    proc_mixed 0 0 = .error "boom" ∧
    ((0, 0) ∈ batch_task_keys fresh_batch_state.enhanced_modules
      fresh_batch_state.submodules_in_process (current_batch fresh_batch_state)) ∧
    2 ≤ (current_batch fresh_batch_state).length ∧
    fresh_batch_state.current_submodule_batch_index
      < fresh_batch_state.submodule_batches.length ∧
    (record_lookup (0, 0)
        (process_submodule_batch proc_mixed fresh_batch_state).submodules_in_process
        = some (SubResult.error 0 0 "boom") ∧
      ∀ key ∈ batch_task_keys fresh_batch_state.enhanced_modules
          fresh_batch_state.submodules_in_process (current_batch fresh_batch_state),
        key ≠ (0, 0) →
          record_lookup key
              (process_submodule_batch proc_mixed fresh_batch_state).submodules_in_process
            = some (process_single_submodule proc_mixed key.1 key.2)) :=
  ⟨rfl, by decide, by decide, by decide,
    executor_error_isolation fresh_batch_state proc_mixed 0 0 "boom"
      rfl (by decide) (by decide) (by decide)⟩

/-- C6: for a non-empty WorkItem set of size `N` and batch size `k ≥ 1`, the
planner produces exactly `⌈N/k⌉ ≥ 1` batches; each Executor+Reducer cycle
advances the batch index by exactly one starting from 0; the check routes to
`continue_processing` while the index is below the batch count and reaches
`all_batches_processed` after exactly `⌈N/k⌉` cycles. -/
theorem state_machine_termination (st : LearningPathState) (proc : Processor)
    (hk : 1 ≤ st.submodule_parallel_count)
    (hne : all_submodules st.enhanced_modules ≠ []) :
    (init_submodule_processing st).submodule_batches.length
        = ((all_submodules st.enhanced_modules).length + st.submodule_parallel_count - 1)
          / st.submodule_parallel_count ∧
    1 ≤ (init_submodule_processing st).submodule_batches.length ∧
    (∀ j, j ≤ (init_submodule_processing st).submodule_batches.length →
      (run_batch_cycles proc (init_submodule_processing st) j).current_submodule_batch_index
        = j) ∧
    (∀ j, j < (init_submodule_processing st).submodule_batches.length →
      check_submodule_batch_processing
        (some ((run_batch_cycles proc (init_submodule_processing st) j).current_submodule_batch_index))
        (some ((run_batch_cycles proc (init_submodule_processing st) j).submodule_batches))
          = "continue_processing") ∧
    check_submodule_batch_processing
      (some ((run_batch_cycles proc (init_submodule_processing st)
        ((init_submodule_processing st).submodule_batches.length)).current_submodule_batch_index))
      (some ((run_batch_cycles proc (init_submodule_processing st)
        ((init_submodule_processing st).submodule_batches.length)).submodule_batches))
        = "all_batches_processed" := by
  have hlen : (init_submodule_processing st).submodule_batches.length
      = ((all_submodules st.enhanced_modules).length + st.submodule_parallel_count - 1)
        / st.submodule_parallel_count := by
    rw [init_batches, batch_items_length _ _ hk, List.length_map,
      List.length_insertionSort]
  have hpos : 1 ≤ (init_submodule_processing st).submodule_batches.length := by
    rw [hlen]
    have h1 : 1 ≤ (all_submodules st.enhanced_modules).length :=
      List.length_pos.mpr hne
    rw [Nat.le_div_iff_mul_le (by omega)]
    omega
  have hidx := run_cycles_index proc (init_submodule_processing st) (init_index st)
  refine ⟨hlen, hpos, hidx, ?_, ?_⟩
  · intro j hj
    rw [hidx j (le_of_lt hj), run_cycles_batches]
    show (if (init_submodule_processing st).submodule_batches.length ≤ j then
      "all_batches_processed" else "continue_processing") = "continue_processing"
    rw [if_neg (by omega)]
  · rw [hidx _ le_rfl, run_cycles_batches]
    show (if (init_submodule_processing st).submodule_batches.length ≤
        (init_submodule_processing st).submodule_batches.length then
      "all_batches_processed" else "continue_processing") = "all_batches_processed"
    rw [if_pos le_rfl]

/-- C6 witness: the scenario state (4 work items, `k = 2`) terminates after
exactly 2 cycles. -/
theorem state_machine_termination_witness :
    1 ≤ base_state.submodule_parallel_count ∧
    all_submodules base_state.enhanced_modules ≠ [] ∧
    ((init_submodule_processing base_state).submodule_batches.length
        = ((all_submodules base_state.enhanced_modules).length
            + base_state.submodule_parallel_count - 1)
          / base_state.submodule_parallel_count ∧
      1 ≤ (init_submodule_processing base_state).submodule_batches.length ∧
      (∀ j, j ≤ (init_submodule_processing base_state).submodule_batches.length →
        (run_batch_cycles proc_ok (init_submodule_processing base_state) j).current_submodule_batch_index
          = j) ∧
      (∀ j, j < (init_submodule_processing base_state).submodule_batches.length →
        check_submodule_batch_processing
          (some ((run_batch_cycles proc_ok (init_submodule_processing base_state) j).current_submodule_batch_index))
          (some ((run_batch_cycles proc_ok (init_submodule_processing base_state) j).submodule_batches))
            = "continue_processing") ∧
      check_submodule_batch_processing
        (some ((run_batch_cycles proc_ok (init_submodule_processing base_state)
          ((init_submodule_processing base_state).submodule_batches.length)).current_submodule_batch_index))
        (some ((run_batch_cycles proc_ok (init_submodule_processing base_state)
          ((init_submodule_processing base_state).submodule_batches.length)).submodule_batches))
          = "all_batches_processed") :=
  ⟨by decide, by decide,
    state_machine_termination base_state proc_ok (by decide) (by decide)⟩

/-- C7: in the Finalizer's output, every unit's attached sub-unit result list
is sorted by `sub_id` ascending, for every input state (hence regardless of
the completion order in which results were appended during execution). -/
theorem finalizer_output_sorted (st : LearningPathState) :
    ∀ md ∈ (finalize_enhanced_learning_path st).modules,
      md.submodules.Pairwise (fun a b => a.id ≤ b.id) := by
  intro md hmd
  unfold finalize_enhanced_learning_path finalize_body at hmd
  by_cases hdev : st.developed_submodules = []
  · rw [if_pos hdev] at hmd
    exact absurd hmd (List.not_mem_nil md)
  · rw [if_neg hdev] at hmd
    rcases hst : st.steps with _ | s <;> rw [hst] at hmd
    · exact absurd hmd (List.not_mem_nil md)
    · simp only [List.mem_map, List.mem_range] at hmd
      obtain ⟨mid, _, rfl⟩ := hmd
      rw [List.pairwise_map]
      refine List.Pairwise.imp ?_
        (List.sorted_insertionSort submodule_le
          (module_to_subs st.developed_submodules mid))
      intro a b hab
      exact hab

/-- C7 witness: a state whose two results arrived out of `sub_id` order still
yields a sorted output list. -/
theorem finalizer_output_sorted_witness :
    ((finalize_enhanced_learning_path unordered_results_state).modules.getD 0 default)
        ∈ (finalize_enhanced_learning_path unordered_results_state).modules ∧
    ((finalize_enhanced_learning_path unordered_results_state).modules.getD 0
        default).submodules.Pairwise (fun a b => a.id ≤ b.id) := by
  have hlen : 0 < (finalize_enhanced_learning_path unordered_results_state).modules.length := by
    rw [finalize_modules_success unordered_results_state ["planned"] (by decide) rfl]
    simp only [List.length_map, List.length_range]
    decide
  have hmem : (finalize_enhanced_learning_path unordered_results_state).modules.getD 0 default
      ∈ (finalize_enhanced_learning_path unordered_results_state).modules := by
    rw [List.getD_eq_getElem?_getD, List.getElem?_eq_getElem hlen, Option.getD_some]
    exact List.getElem_mem hlen
  exact ⟨hmem, finalizer_output_sorted unordered_results_state _ hmem⟩

/-- C8: re-invoking the Executor+Reducer cycle on a batch whose entries are
all already `completed` (and in bounds) creates zero processing tasks, yet
still appends one more finalized result per batch entry to
`developed_submodules` — the append step of the reduce phase is not
idempotent even though the execute phase is. -/
theorem reducer_reappends_on_completed (st : LearningPathState)
    (hactive : st.current_submodule_batch_index < st.submodule_batches.length)
    (h : ∀ key ∈ current_batch st,
      is_completed (record_lookup key st.submodules_in_process) = true ∧
      submodule_in_bounds st.enhanced_modules key = true)
    (proc : Processor) :
    batch_task_keys st.enhanced_modules st.submodules_in_process (current_batch st) = [] ∧
    (process_submodule_batch proc st).developed_submodules.length
      = st.developed_submodules.length + (current_batch st).length := by
  have hnd : ¬ st.submodule_batches.length ≤ st.current_submodule_batch_index := by omega
  have ht : batch_task_keys st.enhanced_modules st.submodules_in_process
      (current_batch st) = [] := by
    unfold batch_task_keys
    rw [List.filter_eq_nil_iff]
    intro key hk
    rw [(h key hk).1]
    simp
  refine ⟨ht, ?_⟩
  rw [process_developed proc st hnd, List.length_append]
  congr 1
  apply filterMap_length_of_isSome
  intro key hk
  rw [process_record proc st hnd]
  unfold developed_entry
  rw [record_lookup_reduce, ht, if_neg (List.not_mem_nil key)]
  obtain ⟨hc, hb⟩ := h key hk
  unfold submodule_in_bounds at hb
  rw [Bool.and_eq_true, decide_eq_true_iff, decide_eq_true_iff] at hb
  rcases hl : record_lookup key st.submodules_in_process with _ | r
  · rw [hl] at hc
    exact absurd hc (by simp [is_completed])
  · cases r with
    | error m s msg =>
      rw [hl] at hc
      exact absurd hc (by simp [is_completed, SubResult.status])
    | completed m s qs rs c =>
      have hb2 : key.2 < st.enhanced_modules[key.1].submodules.length := by
        simpa [List.getD_eq_getElem?_getD, List.getElem?_eq_getElem hb.1] using hb.2
      simp [hb.1, hb2]

/-- C8 witness: one completed, in-bounds batch entry; the developed list
grows from 0 to 1 entries with zero tasks created. -/
theorem reducer_reappends_witness :
    completed_state.current_submodule_batch_index
      < completed_state.submodule_batches.length ∧
    (∀ key ∈ current_batch completed_state,
      is_completed (record_lookup key completed_state.submodules_in_process) = true ∧
      submodule_in_bounds completed_state.enhanced_modules key = true) ∧
    (batch_task_keys completed_state.enhanced_modules
        completed_state.submodules_in_process (current_batch completed_state) = [] ∧
      (process_submodule_batch proc_ok completed_state).developed_submodules.length
        = completed_state.developed_submodules.length
          + (current_batch completed_state).length) :=
  ⟨by decide, by decide,
    reducer_reappends_on_completed completed_state (by decide) (by decide) proc_ok⟩

/-- C9: a batch entry whose indices lie outside the hierarchy bounds gets no
processing task, its record key is never written by the cycle, and every
result the Reducer appends carries in-bounds indices. -/
theorem executor_skips_malformed (st : LearningPathState) (proc : Processor)
    (key : ℕ × ℕ)
    (hmem : key ∈ current_batch st)
    (hob : submodule_in_bounds st.enhanced_modules key = false) :
    key ∉ batch_task_keys st.enhanced_modules st.submodules_in_process (current_batch st) ∧
    record_lookup key (process_submodule_batch proc st).submodules_in_process
      = record_lookup key st.submodules_in_process ∧
    ∀ d ∈ (process_submodule_batch proc st).developed_submodules,
      d ∈ st.developed_submodules ∨
        submodule_in_bounds st.enhanced_modules (d.module_id, d.submodule_id) = true := by
  have hnot : key ∉ batch_task_keys st.enhanced_modules st.submodules_in_process
      (current_batch st) := by
    intro hc
    rw [batch_task_keys, List.mem_filter] at hc
    obtain ⟨_, hpred⟩ := hc
    rw [hob] at hpred
    simp at hpred
  refine ⟨hnot, ?_, ?_⟩
  · by_cases hdone : st.submodule_batches.length ≤ st.current_submodule_batch_index
    · rw [process_done proc st hdone]
    · rw [process_record proc st hdone, record_lookup_reduce, if_neg hnot]
  · intro d hd
    by_cases hdone : st.submodule_batches.length ≤ st.current_submodule_batch_index
    · rw [process_done proc st hdone] at hd
      exact Or.inl hd
    · rw [process_developed proc st hdone] at hd
      rcases List.mem_append.mp hd with h1 | h2
      · exact Or.inl h1
      · obtain ⟨k, _, hk2⟩ := List.mem_filterMap.mp h2
        exact Or.inr (developed_entry_some hk2).2.2

/-- C9 witness: a batch entry `(5, 0)` referencing a nonexistent module. -/
theorem executor_skips_malformed_witness :
    ((5, 0) ∈ current_batch malformed_state) ∧
    submodule_in_bounds malformed_state.enhanced_modules (5, 0) = false ∧
    ((5, 0) ∉ batch_task_keys malformed_state.enhanced_modules
        malformed_state.submodules_in_process (current_batch malformed_state) ∧
      record_lookup (5, 0)
          (process_submodule_batch proc_ok malformed_state).submodules_in_process
        = record_lookup (5, 0) malformed_state.submodules_in_process ∧
      ∀ d ∈ (process_submodule_batch proc_ok malformed_state).developed_submodules,
        d ∈ malformed_state.developed_submodules ∨
          submodule_in_bounds malformed_state.enhanced_modules
            (d.module_id, d.submodule_id) = true) :=
  ⟨by decide, by decide,
    executor_skips_malformed malformed_state proc_ok (5, 0) (by decide) (by decide)⟩

/-- C10: when final assembly fails (the one fallible assembly operation the
scheduler's own state can trigger: the unguarded `state["steps"]` access
with the key absent), the Finalizer catches the exception and returns a
structurally valid degenerate output — empty unit list, topic preserved, and
an explicit error field — instead of propagating. -/
theorem finalizer_catches_assembly_failure (st : LearningPathState)
    (hdev : st.developed_submodules ≠ []) (hsteps : st.steps = none) :
    finalize_enhanced_learning_path st =
      { topic := st.user_topic, modules := [], execution_steps := none,
        error := some "KeyError: steps" } := by
  unfold finalize_enhanced_learning_path finalize_body
  rw [if_neg hdev, hsteps]

/-- C10 witness: results exist but the `steps` key is absent. -/
theorem finalizer_catches_assembly_failure_witness :
    broken_steps_state.developed_submodules ≠ [] ∧
    broken_steps_state.steps = none ∧
    finalize_enhanced_learning_path broken_steps_state =
      { topic := broken_steps_state.user_topic, modules := [], execution_steps := none,
        error := some "KeyError: steps" } :=
  ⟨by decide, by decide,
    finalizer_catches_assembly_failure broken_steps_state (by decide) (by decide)⟩

end LearnCompass
